import Mathlib

/-!
Shallow embedding of `cyaml.h` (wwotz/cyaml), a single-header YAML-subset
parser. The buffer (`char *`) is modelled as `List Char`, where the end of
the list stands for the terminating NUL byte. `size_t` values are `Nat`
kept below `2^64`, with the wraparound of unsigned arithmetic written as
an explicit `% 2^64` where the C decrements. The global variables
(`cyaml_log_stack`, `cyaml_log_stack_ptr`, `cyaml_log_stack_size`,
`peeked`, `peek_token`, `indent_level`) are threaded through the functions
explicitly as a state record. An out-of-bounds array read is modelled as
`none` (in C it is undefined behaviour).
-/

/-- Capacity of one diagnostic message: `CYAML_LOG_MESSAGE_CAPACITY` (256). -/
def CYAML_LOG_MESSAGE_CAPACITY : Nat := 256

/-- Number of retained diagnostic slots: `CYAML_LOG_STACK_CAPACITY` (20). -/
def CYAML_LOG_STACK_CAPACITY : Nat := 20

/-- Modulus of C `size_t` arithmetic (64-bit target). -/
def SIZE_T_MOD : Nat := 2 ^ 64

/-- The diagnostic-log globals: `cyaml_log_stack` (20 slots of 256 bytes),
`cyaml_log_stack_ptr` and `cyaml_log_stack_size` (both `size_t`). -/
structure LogState where
  slots : List String
  ptr : Nat
  size : Nat
deriving DecidableEq, Repr

/-- The log at program start: zeroed slots, `ptr = 0`, `size = 0`. -/
def initLog : LogState :=
  { slots := List.replicate CYAML_LOG_STACK_CAPACITY "", ptr := 0, size := 0 }

/-- `cyaml_log_stack_empty`. -/
def cyaml_log_stack_empty (g : LogState) : Bool :=
  g.size == 0

/-- `cyaml_log_stack_full`. -/
def cyaml_log_stack_full (g : LogState) : Bool :=
  g.size == CYAML_LOG_STACK_CAPACITY

/-- `vsnprintf(slot, CYAML_LOG_MESSAGE_CAPACITY - 1, ...)` stores at most
254 characters of the formatted message (the size argument counts the
terminating NUL). -/
def truncMsg (m : String) : String :=
  String.mk (m.toList.take (CYAML_LOG_MESSAGE_CAPACITY - 2))

/-- `cyaml_log_message`: grow `size` unless full, format the message into
slot `ptr`, then advance `ptr` cyclically. (If `ptr ≥ 20` the C write is
out of bounds — undefined; `List.set` leaves the list unchanged there, and
no claim exercises that path.) -/
def cyaml_log_message (m : String) (g : LogState) : LogState :=
  let size' := if cyaml_log_stack_full g then g.size else g.size + 1
  { slots := g.slots.set g.ptr (truncMsg m)
    ptr := (g.ptr + 1) % CYAML_LOG_STACK_CAPACITY
    size := size' }

/-- `cyaml_error_pop`: when nonempty, decrement `size`, decrement `ptr`
(a `size_t`, so `0 - 1` wraps to `2^64 - 1`), apply the (dead) guard
`if (cyaml_log_stack_ptr < 0) cyaml_log_stack_ptr += 20` — never taken,
a `size_t` is never negative — and return the slot at the new `ptr`
(`none` models the out-of-bounds read when `ptr` left `[0, 20)`).
When empty, return the sentinel `"No error."` unchanged. -/
def cyaml_error_pop (g : LogState) : Option String × LogState :=
  if cyaml_log_stack_empty g then (some "No error.", g)
  else
    let size' := g.size - 1
    let ptr1 := (g.ptr + (SIZE_T_MOD - 1)) % SIZE_T_MOD
    let ptr2 := if ptr1 < 0 then ptr1 + CYAML_LOG_STACK_CAPACITY else ptr1
    (g.slots[ptr2]?, { g with ptr := ptr2, size := size' })

/-- `cyaml_token_t`: the token kinds of the lexer, with the borrowed
slice (`len`/`data`) carried as the character list itself. -/
inductive Token where
  | empty : Token
  | colon : Token
  | string (data : List Char) : Token
  | symbol (data : List Char) : Token
  | indent (len : Nat) : Token
  | undent (len : Nat) : Token
  | dash : Token
  | tokEnd : Token
  | error (msg : String) : Token
deriving DecidableEq, Repr

/-- `CYAML_TOKEN_KEYP`. -/
def tokIsKey : Token → Bool
  | .symbol _ => true
  | _ => false

/-- `token.type == CYAML_TOKEN_ERROR`. -/
def tokIsError : Token → Bool
  | .error _ => true
  | _ => false

/-- `token.type == CYAML_TOKEN_END`. -/
def tokIsEnd : Token → Bool
  | .tokEnd => true
  | _ => false

/-- The mutable globals of the lexer (`peeked`, `peek_token`,
`indent_level`) together with the diagnostic-log globals. -/
structure CState where
  peeked : Bool
  peek_token : Token
  indent_level : Nat
  log : LogState
deriving DecidableEq, Repr

/-- The globals at program start. -/
def cstate0 : CState :=
  { peeked := false, peek_token := .empty, indent_level := 0, log := initLog }

/-- C `isspace` in the default locale. -/
def isspace (c : Char) : Bool :=
  c == ' ' || c == '\t' || c == '\n' || c == '\x0b' || c == '\x0c' || c == '\x0d'

/-- C `isalpha` in the default locale. -/
def isalpha (c : Char) : Bool :=
  ('a' ≤ c && c ≤ 'z') || ('A' ≤ c && c ≤ 'Z')

/-- Length of the leading run of characters satisfying `p`:
`strspn` (and, with a negated predicate, `strcspn`). -/
def spanLen (p : Char → Bool) (cs : List Char) : Nat :=
  (cs.takeWhile p).length

/-- Space or tab: the accept-set `" \t"` of the indentation `strspn`. -/
def isSpaceTab (c : Char) : Bool :=
  c == ' ' || c == '\t'

/-- Complement of the reject-set `" \t\n\":-"` of the symbol `strcspn`. -/
def isSymChar (c : Char) : Bool :=
  !(c == ' ' || c == '\t' || c == '\n' || c == '"' || c == ':' || c == '-')

/-- The scan loop of the quoted-string branch of `cyaml_token_get`:
`q` repeatedly jumps to the next `"` (`strcspn(q, "\"")`); buffer end
means the string is unterminated (`none`); a quote whose preceding
character is a backslash is stepped over (`q++`) and the loop re-enters.
Returns the index of the closing quote relative to the character after
the opening quote. The fuel argument only bounds the recursion; each
iteration consumes at least two characters, so `length + 1` never runs
out. -/
def quoteLoopGo : Nat → List Char → Nat → Option Nat
  | 0, _, _ => none
  | fuel + 1, cs, i =>
    match cs with
    | [] => none
    | c :: rest =>
      if c = '"' then some i
      else
        let n := spanLen (fun d => d != '"') (c :: rest)
        match (c :: rest).drop n with
        | [] => none
        | _ :: _ =>
          if (c :: rest).getD (n - 1) ' ' = '\\' then
            quoteLoopGo fuel ((c :: rest).drop (n + 1)) (i + n + 1)
          else some (i + n)

/-- Entry point of the scan loop, with enough fuel. -/
def quoteLoop (cs : List Char) : Option Nat :=
  quoteLoopGo (cs.length + 1) cs 0

/-- `cyaml_token_get`: returns the token, the updated globals and the
updated `*buffer`. Faithful points worth noting: the `peeked` branch
returns `peek_token` without touching `*buffer`; the end-of-buffer and
all three error returns leave `*buffer` unchanged; no branch touches the
diagnostic log. -/
def cyaml_token_get (st : CState) (buf : List Char) : Token × CState × List Char :=
  if st.peeked then (st.peek_token, { st with peeked := false }, buf)
  else
    let p := buf.dropWhile (fun c => c == '\n')
    match p with
    | [] => (.tokEnd, st, buf)
    | c :: _ =>
      if isspace c then
        let k := spanLen isSpaceTab p
        let q := p.drop k
        let token :=
          if k = st.indent_level then Token.empty
          else if k > st.indent_level then Token.indent k
          else Token.undent k
        (token, { st with indent_level := k }, q)
      else if isalpha c then
        let n := spanLen isSymChar p
        let q := p.drop n
        if q.headD '\x00' == '"' then
          (.error "Invalid symbol!", st, buf)
        else
          (.symbol (p.take n), st, q)
      else if c = '"' then
        let content := p.drop 1
        match quoteLoop content with
        | none => (.error "Unterminated string!", st, buf)
        | some i => (.string (content.take i), st, content.drop (i + 1))
      else if c = '-' then (.dash, st, p.drop 1)
      else if c = ':' then (.colon, st, p.drop 1)
      else (.error "Unrecognized token!", st, buf)

/-- `cyaml_token_peek`: lexes from a local copy of the cursor (so
`*buffer` is not advanced), stores the token in `peek_token` and raises
`peeked`. -/
def cyaml_token_peek (st : CState) (buf : List Char) : Token × CState :=
  let r := cyaml_token_get st buf
  (r.1, { r.2.1 with peeked := true, peek_token := r.1 })

/-- `cyaml_loc_t`. -/
inductive cyaml_loc_t where
  | memory : cyaml_loc_t
  | disk : cyaml_loc_t
deriving DecidableEq, Repr

/-- Outcome of the file-system calls made by `cyaml_read_file` for one
path: `absent` models `fopen` failing; `present content readOk` models a
file of `content.length` bytes whose `fread` returns short iff
`readOk = false`. -/
inductive FileOutcome where
  | absent : FileOutcome
  | present (content : List Char) (readOk : Bool) : FileOutcome
deriving DecidableEq, Repr

/-- `cyaml_read_file(s, n)`: builds the file name from the first `n`
characters of `s`, then returns the buffer, or `none` after pushing
"Failed to open file!" (`fopen` failed), "File was empty!"
(`fsize <= 0`, i.e. zero length for a `size_t`), or
"Failed to read file!" (`fread` short). The `malloc`-failure branch is
not modelled (allocation is assumed to succeed). -/
def cyaml_read_file (fs : List Char → FileOutcome) (s : List Char) (n : Nat)
    (st : CState) : Option (List Char) × CState :=
  let fname := s.take n
  match fs fname with
  | .absent => (none, { st with log := cyaml_log_message "Failed to open file!" st.log })
  | .present content readOk =>
    if content.length = 0 then
      (none, { st with log := cyaml_log_message "File was empty!" st.log })
    else if readOk = false then
      (none, { st with log := cyaml_log_message "Failed to read file!" st.log })
    else (some content, st)

/-- What a `cyaml_parse` call does: `doc` would be a non-NULL
`cyaml_t *` (no return statement of the function ever produces one),
`nullRet` is `return NULL`, `crash` is the undefined behaviour of lexing
the NULL buffer that a failed `cyaml_read_file` leaves unchecked, and
`spin` means the token loop did not terminate within the given fuel. -/
inductive ParseOutcome where
  | doc : ParseOutcome
  | nullRet : ParseOutcome
  | crash : ParseOutcome
  | spin : ParseOutcome
deriving DecidableEq, Repr

/-- The token loop of `cyaml_parse`, entered with the token just read:
`while (token.type != CYAML_TOKEN_ERROR && token.type != CYAML_TOKEN_END)`
— on exit the buffer is freed and the function returns NULL. Inside the
body a Symbol token triggers `cyaml_token_peek` (whose result `ptoken`
feeds an empty `if`), the token is printed, and the next token is
fetched at the bottom. -/
def cyaml_parse_loop : Nat → Token → CState → List Char → ParseOutcome × CState
  | 0, _, st, _ => (.spin, st)
  | fuel + 1, token, st, buf =>
    if tokIsError token || tokIsEnd token then (.nullRet, st)
    else
      let st1 := if tokIsKey token then (cyaml_token_peek st buf).2 else st
      let r := cyaml_token_get st1 buf
      cyaml_parse_loop fuel r.1 r.2.1 r.2.2

/-- `cyaml_parse(s, n, loc)`: rejects `s == NULL || n <= 0` with an
immediate `return NULL`; calls `cyaml_create` (which allocates a
`cyaml_t` that is never used afterwards — the function body even lacks a
final return statement, and its value feeds an empty `if`); obtains the
buffer from disk (`cyaml_read_file`) or memory (`strndup(s, n)`, here
`take n` since the list carries no interior NUL); then runs the token
loop. A NULL buffer is not checked: `p = buffer` is handed straight to
`cyaml_token_get`, which dereferences it — modelled as `crash`. -/
def cyaml_parse (fuel : Nat) (fs : List Char → FileOutcome) (s : Option (List Char))
    (n : Nat) (loc : cyaml_loc_t) (st : CState) : ParseOutcome × CState :=
  if s = none ∨ n = 0 then (.nullRet, st)
  else
    let r :=
      match loc with
      | .disk => cyaml_read_file fs (s.getD []) n st
      | .memory => (some ((s.getD []).take n), st)
    match r with
    | (none, st1) => (.crash, st1)
    | (some buf, st1) =>
      let t := cyaml_token_get st1 buf
      cyaml_parse_loop fuel t.1 t.2.1 t.2.2

/-- `cyaml_lookup`: pushes "TODO: Implement 'cyaml_lookup'" to the
diagnostic log and returns NULL, whatever the document and path. -/
def cyaml_lookup (cyaml : Option Unit) (path : List Char) (st : CState) :
    Option Unit × CState :=
  (none, { st with log := cyaml_log_message "TODO: Implement 'cyaml_lookup'" st.log })

/-- The buffer of spec Scenario A. -/
def scenarioA : List Char := "name: Alice\nage: 30\n".toList

/-- A file system on which every path is absent. -/
def fsAbsent : List Char → FileOutcome := fun _ => .absent

/-- A file system on which every path is an empty file. -/
def fsEmptyFile : List Char → FileOutcome := fun _ => .present [] true

/-- A file system on which every path is a one-byte file whose read fails. -/
def fsBadRead : List Char → FileOutcome := fun _ => .present ['a'] false

/-- One client operation on the diagnostic log. -/
inductive LogOp where
  | push (m : String) : LogOp
  | pop : LogOp
deriving DecidableEq, Repr

/-- Run one operation: `push` is `cyaml_log_message`, `pop` is
`cyaml_error_pop` with the returned message discarded. -/
def logStep (g : LogState) : LogOp → LogState
  | .push m => cyaml_log_message m g
  | .pop => (cyaml_error_pop g).2

/-- Run a sequence of log operations left to right. -/
def runOps (ops : List LogOp) (g : LogState) : LogState :=
  ops.foldl logStep g

/-- Reference model of one operation on an ideal unbounded stack (most
recent message first); messages are stored truncated, as the C stores
them. -/
def specStep (s : List String) : LogOp → List String
  | .push m => truncMsg m :: s
  | .pop => s.tail

/-- Reference run of a sequence of operations. -/
def specRun (ops : List LogOp) (s : List String) : List String :=
  ops.foldl specStep s

/-- Checks that, starting from `n` live (pushed and not yet popped)
messages, the live count stays at most 19 — strictly below the capacity
of 20 — throughout the sequence. -/
def boundedGo : List LogOp → Nat → Bool
  | [], _ => true
  | .push _ :: rest, n => decide (n + 1 ≤ 19) && boundedGo rest (n + 1)
  | .pop :: rest, n => boundedGo rest (n - 1)

/-- The message `cyaml_error_pop` should report given the ideal stack:
the most recent live message, or the sentinel when empty. -/
def sentinelHead : List String → String
  | [] => "No error."
  | m :: _ => m

/-- The concrete log state realises the ideal stack `s`: sizes and the
cyclic pointer agree with the live count, the live count is below
capacity, and slot `s.length - 1 - i` holds the `i`-th most recent
message. -/
def LogRel (g : LogState) (s : List String) : Prop :=
  g.slots.length = 20 ∧ g.size = s.length ∧ g.ptr = s.length ∧ s.length ≤ 19 ∧
    ∀ i, i < s.length → g.slots[s.length - 1 - i]? = s[i]?

/-- The token loop of `cyaml_parse` can exit only by `return NULL`
(token was Error or End), by running out of fuel, never with a document. -/
theorem cyaml_parse_loop_no_doc : ∀ (fuel : Nat) (t : Token) (st : CState)
    (buf : List Char), (cyaml_parse_loop fuel t st buf).1 ≠ ParseOutcome.doc := by
  intro fuel
  induction fuel with
  | zero => intro t st buf; simp [cyaml_parse_loop]
  | succ n ih =>
    intro t st buf
    rw [cyaml_parse_loop]
    split
    · simp
    · exact ih _ _ _

/-- Pushing a message onto a log that realises an ideal stack of at most
18 live messages realises that stack with the truncated message on top. -/
theorem logRel_push (g : LogState) (s : List String) (m : String)
    (h : LogRel g s) (hlen : s.length ≤ 18) :
    LogRel (cyaml_log_message m g) (truncMsg m :: s) := by
  obtain ⟨h20, hsz, hptr, hb, hidx⟩ := h
  have hfull : cyaml_log_stack_full g = false := by
    simp only [cyaml_log_stack_full, CYAML_LOG_STACK_CAPACITY, hsz]
    simp only [beq_eq_false_iff_ne, ne_eq]
    omega
  refine ⟨?_, ?_, ?_, ?_, ?_⟩
  · simpa [cyaml_log_message] using h20
  · simp [cyaml_log_message, hfull, hsz]
  · show (g.ptr + 1) % CYAML_LOG_STACK_CAPACITY = _
    rw [hptr, List.length_cons, CYAML_LOG_STACK_CAPACITY]
    exact Nat.mod_eq_of_lt (by omega)
  · simp only [List.length_cons]
    omega
  · intro i hi
    simp only [List.length_cons] at hi
    show (g.slots.set g.ptr (truncMsg m))[(truncMsg m :: s).length - 1 - i]? = _
    rcases i with _ | i
    · rw [List.length_cons, Nat.add_sub_cancel, Nat.sub_zero, ← hptr,
        List.getElem?_set_self (by omega)]
      simp
    · have hne : g.ptr ≠ (truncMsg m :: s).length - 1 - (i + 1) := by
        rw [hptr, List.length_cons]
        omega
      rw [List.getElem?_set_ne hne, List.getElem?_cons_succ, List.length_cons,
        Nat.add_sub_cancel]
      have hix : s.length - (i + 1) = s.length - 1 - i := by omega
      rw [hix]
      exact hidx i (by omega)

/-- Popping a log that realises an ideal stack returns the most recent
live message (or the sentinel), and the resulting log realises the stack
without its top; an empty stack leaves the log untouched. -/
theorem logRel_pop (g : LogState) (s : List String) (h : LogRel g s) :
    (cyaml_error_pop g).1 = some (sentinelHead s) ∧
      LogRel (cyaml_error_pop g).2 s.tail ∧
      (s = [] → (cyaml_error_pop g).2 = g) := by
  obtain ⟨h20, hsz, hptr, hb, hidx⟩ := h
  cases s with
  | nil =>
    have he : cyaml_log_stack_empty g = true := by
      simp [cyaml_log_stack_empty, hsz]
    have hpop : cyaml_error_pop g = (some "No error.", g) := by
      simp [cyaml_error_pop, he]
    rw [hpop]
    exact ⟨rfl, ⟨h20, hsz, hptr, hb, hidx⟩, fun _ => rfl⟩
  | cons m t =>
    simp only [List.length_cons] at hsz hptr hb hidx
    have he : cyaml_log_stack_empty g = false := by
      simp [cyaml_log_stack_empty, hsz]
    have hp1 : (g.ptr + (SIZE_T_MOD - 1)) % SIZE_T_MOD = t.length := by
      rw [hptr]
      have h64 : SIZE_T_MOD = 18446744073709551616 := by norm_num [SIZE_T_MOD]
      rw [h64]
      omega
    have hpop : cyaml_error_pop g =
        (g.slots[t.length]?, { g with ptr := t.length, size := g.size - 1 }) := by
      simp [cyaml_error_pop, he, hp1]
    have hget : g.slots[t.length]? = some m := by
      have h0 := hidx 0 (by omega)
      simpa using h0
    rw [hpop]
    refine ⟨by rw [hget]; rfl, ?_, by intro hh; cases hh⟩
    simp only [List.tail_cons]
    refine ⟨h20, by simp [hsz], rfl, by omega, ?_⟩
    intro i hi
    have hix : t.length - 1 - i = t.length + 1 - 1 - (i + 1) := by omega
    show g.slots[t.length - 1 - i]? = _
    rw [hix, hidx (i + 1) (by omega), List.getElem?_cons_succ]

/-- Running a sequence of operations that keeps the live count strictly
below capacity preserves the realisation of the ideal stack. -/
theorem runOps_logRel (ops : List LogOp) : ∀ (g : LogState) (s : List String),
    LogRel g s → boundedGo ops s.length = true →
    LogRel (runOps ops g) (specRun ops s) := by
  induction ops with
  | nil => intro g s h _; exact h
  | cons op rest ih =>
    intro g s h hbd
    cases op with
    | push m =>
      rw [boundedGo, Bool.and_eq_true, decide_eq_true_eq] at hbd
      obtain ⟨h1, h2⟩ := hbd
      have hrel := logRel_push g s m h (by omega)
      have hrun := ih (cyaml_log_message m g) (truncMsg m :: s) hrel
        (by simpa using h2)
      simpa [runOps, specRun, logStep, specStep] using hrun
    | pop =>
      have hrel := (logRel_pop g s h).2.1
      have hlen : s.tail.length = s.length - 1 := by cases s <;> simp
      have hrun := ih (cyaml_error_pop g).2 s.tail hrel (by rw [hlen]; exact hbd)
      simpa [runOps, specRun, logStep, specStep] using hrun

/-- Claim C7 (amended): for every sequence of pushes and pops from the
initial empty log in which the live (pushed, not yet popped) count never
exceeds 19 — strictly below the capacity of 20 — `cyaml_error_pop`
returns the most recently pushed unpopped message (stored truncated to
the message capacity), removing it (the resulting log realises the stack
without its top), and on an empty log it returns the "No error."
sentinel leaving the log unchanged. -/
theorem c7_pop_is_lifo (ops : List LogOp) (hb : boundedGo ops 0 = true) :
    (cyaml_error_pop (runOps ops initLog)).1
        = some (sentinelHead (specRun ops [])) ∧
      LogRel (cyaml_error_pop (runOps ops initLog)).2 (specRun ops []).tail ∧
      (specRun ops [] = [] →
        (cyaml_error_pop (runOps ops initLog)).2 = runOps ops initLog) := by
  have h0 : LogRel initLog [] := by
    refine ⟨by simp [initLog, CYAML_LOG_STACK_CAPACITY], rfl, rfl, by simp, ?_⟩
    intro i hi
    simp at hi
  exact logRel_pop _ _ (runOps_logRel ops initLog [] h0 hb)

/-- Witness for C7: pushing "alpha" then "beta" and popping returns
"beta", the most recent message. -/
theorem c7_pop_is_lifo_witness :
    (cyaml_error_pop (runOps [LogOp.push "alpha", LogOp.push "beta"] initLog)).1
      = some "beta" := by
  have h := c7_pop_is_lifo [LogOp.push "alpha", LogOp.push "beta"] (by decide)
  exact h.1.trans (by decide)

/-- Claim C7 (counterexample): after 20 pushes the pointer has wrapped to
0 while 20 messages are live; the next pop underflows the unsigned
pointer and reads out of bounds (`none`), so it does not return the most
recently pushed message "x" as the claim demands. -/
theorem c7_counterexample :
    (cyaml_error_pop (runOps (List.replicate 20 (LogOp.push "x")) initLog)).1
        = none ∧
      (cyaml_error_pop (runOps (List.replicate 20 (LogOp.push "x")) initLog)).1
        ≠ some "x" := by decide

/-- Claim C9 (refuting theorem): after 20 pushes and one pop the stack
pointer is `2^64 - 1`, not strictly below the capacity 20 — the
`size_t` decrement at 0 wraps and the `if (ptr < 0)` repair never fires,
so the pop reads far outside the message array. -/
theorem c9_ptr_escapes_capacity :
    (cyaml_error_pop (runOps (List.replicate 20 (LogOp.push "x")) initLog)).2.ptr
        = 2 ^ 64 - 1 ∧
      ¬ (cyaml_error_pop (runOps (List.replicate 20 (LogOp.push "x")) initLog)).2.ptr
          < CYAML_LOG_STACK_CAPACITY := by decide

/-- Claim C2: at a cursor position whose next character begins a run of
spaces/tabs (with no token pending in the lookahead buffer), the lexer
measures the run: a run equal to the recorded `indent_level` yields the
Empty token (no Indent/Undent), a strictly greater run yields
`Indent(run)`, a strictly smaller run yields `Undent(run)`; in all three
cases `indent_level` is set to the measured run and the cursor moves past
the run. -/
theorem c2_indentation (st : CState) (c : Char) (rest : List Char)
    (hp : st.peeked = false) (hc : c = ' ' ∨ c = '\t') :
    (spanLen isSpaceTab (c :: rest) = st.indent_level →
        (cyaml_token_get st (c :: rest)).1 = Token.empty) ∧
      (st.indent_level < spanLen isSpaceTab (c :: rest) →
        (cyaml_token_get st (c :: rest)).1
          = Token.indent (spanLen isSpaceTab (c :: rest))) ∧
      (spanLen isSpaceTab (c :: rest) < st.indent_level →
        (cyaml_token_get st (c :: rest)).1
          = Token.undent (spanLen isSpaceTab (c :: rest))) ∧
      (cyaml_token_get st (c :: rest)).2.1.indent_level
        = spanLen isSpaceTab (c :: rest) ∧
      (cyaml_token_get st (c :: rest)).2.2
        = (c :: rest).drop (spanLen isSpaceTab (c :: rest)) := by
  have hcn : (c == '\n') = false := by rcases hc with h | h <;> subst h <;> decide
  have hsp : isspace c = true := by rcases hc with h | h <;> subst h <;> decide
  have hdw : (c :: rest).dropWhile (fun d => d == '\n') = c :: rest := by
    simp [List.dropWhile_cons, hcn]
  refine ⟨?_, ?_, ?_, ?_, ?_⟩ <;>
    simp only [cyaml_token_get, hp, Bool.false_eq_true, if_false, hdw, hsp, if_true] <;>
    intros <;> split_ifs <;> simp_all <;> omega

/-- Witness for C2 at the buffer `"  x"` from the initial state: the run
of two spaces against `indent_level = 0` yields `Indent(2)`. -/
theorem c2_indentation_witness :
    (cyaml_token_get cstate0 [' ', ' ', 'x']).1 = Token.indent 2 := by
  have h := c2_indentation cstate0 ' ' [' ', 'x'] rfl (Or.inl rfl)
  exact (h.2.1 (by decide)).trans (by decide)

/-- Claim C3: `cyaml_token_peek` is idempotent — from any lexer state and
buffer, a second peek returns the token of the first, and the
`cyaml_token_get` call that follows (the `next`) returns that same
token. -/
theorem c3_peek_idempotent (st : CState) (buf : List Char) :
    (cyaml_token_peek (cyaml_token_peek st buf).2 buf).1
        = (cyaml_token_peek st buf).1 ∧
      (cyaml_token_get (cyaml_token_peek (cyaml_token_peek st buf).2 buf).2 buf).1
        = (cyaml_token_peek st buf).1 := by
  exact ⟨rfl, rfl⟩

/-- Claim C4 (refuting theorem): on the buffer `":-"`, peek returns
Colon; the `cyaml_token_get` that drains it returns Colon but leaves the
cursor at the start of the buffer (`":-"` again); the following
`cyaml_token_get` therefore re-lexes and returns Colon a second time
instead of Dash. -/
theorem c4_drained_peek_does_not_advance :
    (cyaml_token_peek cstate0 [':', '-']).1 = Token.colon ∧
      (cyaml_token_get (cyaml_token_peek cstate0 [':', '-']).2 [':', '-']).1
        = Token.colon ∧
      (cyaml_token_get (cyaml_token_peek cstate0 [':', '-']).2 [':', '-']).2.2
        = [':', '-'] ∧
      (cyaml_token_get
          (cyaml_token_get (cyaml_token_peek cstate0 [':', '-']).2 [':', '-']).2.1
          (cyaml_token_get (cyaml_token_peek cstate0 [':', '-']).2 [':', '-']).2.2).1
        = Token.colon := by decide

/-- Claim C5 (counterexample): lexing `"a\"b"` does not produce the
three-character content `a"b` that the claim states. -/
theorem c5_counterexample :
    (cyaml_token_get cstate0 ['"', 'a', '\\', '"', 'b', '"']).1
      ≠ Token.string ['a', '"', 'b'] := by decide

/-- Claim C5 (amended): lexing `"a\"b"` yields a String token whose
content is the four characters `a\"b` — the escape keeps the interior
quote from ending the string, but the backslash is retained in the
content; the outer quotes are stripped and the cursor ends past the
closing quote. -/
theorem c5_escaped_quote_kept :
    (cyaml_token_get cstate0 ['"', 'a', '\\', '"', 'b', '"']).1
        = Token.string ['a', '\\', '"', 'b'] ∧
      (cyaml_token_get cstate0 ['"', 'a', '\\', '"', 'b', '"']).2.2 = [] := by decide

/-- Claim C6 (counterexample): lexing `"."` from the initial state yields
an Error token, yet the diagnostic log still holds zero messages. -/
theorem c6_counterexample :
    tokIsError (cyaml_token_get cstate0 ['.']).1 = true ∧
      (cyaml_token_get cstate0 ['.']).2.1.log.size = 0 := by decide

/-- Claim C6 (amended): `cyaml_token_get` never pushes to the diagnostic
log — on every call, also the ones producing an Error token, the log
comes back unchanged; the error text travels only inside the token. -/
theorem c6_lexer_never_logs (st : CState) (buf : List Char) :
    (cyaml_token_get st buf).2.1.log = st.log := by
  unfold cyaml_token_get
  split
  · rfl
  · dsimp only
    repeat' split
    all_goals rfl

/-- Claim C8 (code evaluated at the failing inputs): a nonexistent path,
an empty file and a failing read each push their own distinct message
("Failed to open file!", "File was empty!", "Failed to read file!") and
leave `cyaml_read_file` without a buffer; but `cyaml_parse` never checks
that buffer, so the disk parse ends in the NULL-buffer dereference
(`crash`), not in a clean failure return. -/
theorem c8_disk_error_messages :
    (cyaml_parse 5 fsAbsent (some "nofile".toList) 6 .disk cstate0).1
        = ParseOutcome.crash ∧
      (cyaml_error_pop
          (cyaml_parse 5 fsAbsent (some "nofile".toList) 6 .disk cstate0).2.log).1
        = some "Failed to open file!" ∧
      (cyaml_read_file fsEmptyFile "nofile".toList 6 cstate0).1 = none ∧
      (cyaml_error_pop (cyaml_read_file fsEmptyFile "nofile".toList 6 cstate0).2.log).1
        = some "File was empty!" ∧
      (cyaml_read_file fsBadRead "nofile".toList 6 cstate0).1 = none ∧
      (cyaml_error_pop (cyaml_read_file fsBadRead "nofile".toList 6 cstate0).2.log).1
        = some "Failed to read file!" := by decide

/-- Claim C10: `cyaml_parse` with a NULL source or a zero length returns
NULL at once, with every global — the diagnostic log included —
unchanged. -/
theorem c10_null_source_rejected (fuel : Nat) (fs : List Char → FileOutcome)
    (s : Option (List Char)) (n : Nat) (loc : cyaml_loc_t) (st : CState)
    (h : s = none ∨ n = 0) :
    cyaml_parse fuel fs s n loc st = (ParseOutcome.nullRet, st) := by
  unfold cyaml_parse
  rw [if_pos h]

/-- Witness for C10: a NULL source with positive length, and a non-NULL
source with zero length, both from the initial state. -/
theorem c10_null_source_rejected_witness :
    cyaml_parse 3 fsAbsent none 7 .memory cstate0 = (ParseOutcome.nullRet, cstate0) ∧
      cyaml_parse 3 fsAbsent (some scenarioA) 0 .disk cstate0
        = (ParseOutcome.nullRet, cstate0) := by
  exact ⟨c10_null_source_rejected 3 fsAbsent none 7 .memory cstate0 (Or.inl rfl),
    c10_null_source_rejected 3 fsAbsent (some scenarioA) 0 .disk cstate0 (Or.inr rfl)⟩

/-- Claim C1 (refuting theorem): no `cyaml_parse` call ever returns a
document — every return statement of the function returns NULL (or the
run crashes or spins); `cyaml_lookup` always returns NULL; and on the
Scenario A buffer `"name: Alice\nage: 30\n"` the token loop does not
terminate (with fuel 100 it is still spinning: after the key `age` is
peeked, the cursor never advances again). -/
theorem c1_parse_returns_no_document :
    (∀ (fuel : Nat) (fs : List Char → FileOutcome) (s : Option (List Char)) (n : Nat)
        (loc : cyaml_loc_t) (st : CState),
        (cyaml_parse fuel fs s n loc st).1 ≠ ParseOutcome.doc) ∧
      (∀ (d : Option Unit) (path : List Char) (st : CState),
        (cyaml_lookup d path st).1 = none) ∧
      (cyaml_parse 100 fsAbsent (some scenarioA) scenarioA.length .memory cstate0).1
        = ParseOutcome.spin := by
  refine ⟨?_, fun _ _ _ => rfl, by decide⟩
  intro fuel fs s n loc st
  unfold cyaml_parse
  split
  · simp
  · split
    · rcases hr : cyaml_read_file fs (s.getD []) n st with ⟨_ | buf, st1⟩ <;> dsimp only
      · simp
      · exact cyaml_parse_loop_no_doc _ _ _ _
    · exact cyaml_parse_loop_no_doc _ _ _ _
